import Mathlib

/-!
Verification of the streaming audio capture and incremental-transcription
pipeline of voxii-desktop (src/App.tsx), via a shallow embedding.

The recorder returned by `startRecorder` is modelled as an explicit state
machine (`StreamState`); the chunk scheduler's interval callback, the WAV
encoder, the transcript listener and the stop-time flush are modelled as
pure functions translated statement by statement from the source.
-/

/-- A raw audio blob: its byte contents. -/
abbrev Blob := List Nat

/-- The mutable closure state of the stream recorder inside `startRecorder`
(src/App.tsx lines 184-213): whether `ensureStreamRecorder` has created the
recorder (`started`), the accumulated `streamParts`, whether a
`streamChunkResolver` is outstanding (`resolver`), the `streamActive` flag,
the `streamWarmup` flag, and whether the MediaRecorder's state is
currently recording (`recording`). -/
structure StreamState where
  started : Bool
  streamParts : List Blob
  resolver : Bool
  streamActive : Bool
  streamWarmup : Bool
  recording : Bool
deriving DecidableEq, Repr

/-- State right after `startRecorder` returns: the stream recorder is not
yet created (`let streamRecorder = null`, `streamWarmup = true`). -/
def initialStreamState : StreamState :=
  ⟨false, [], false, false, true, false⟩

/-- `ensureStreamRecorder` (lines 190-213): on first use it creates the
recorder, sets `streamActive = true` and starts recording. -/
def ensureStreamRecorder (st : StreamState) : StreamState :=
  if st.started then st
  else { st with started := true, streamActive := true, recording := true }

/-- Outcome of a `getChunk` or `getFinalChunk` call: an immediate `null`
return, or a pending cut whose blob is delivered by the `onstop` handler. -/
inductive CutOutcome where
  | immediateNull
  | pendingCut
deriving DecidableEq, Repr

/-- `getChunk` (lines 227-241): ensure the recorder exists; the warm-up
call returns null (clearing the flag); a call while the recorder is not in
the recording state returns null; a call while a resolver is outstanding
returns null; otherwise the resolver is installed and `stop()` is called
(the recorder state leaves recording). -/
def getChunkStep (st : StreamState) : CutOutcome × StreamState :=
  let st1 := ensureStreamRecorder st
  if st1.streamWarmup then (CutOutcome.immediateNull, { st1 with streamWarmup := false })
  else if !st1.recording then (CutOutcome.immediateNull, st1)
  else if st1.resolver then (CutOutcome.immediateNull, st1)
  else (CutOutcome.pendingCut, { st1 with resolver := true, recording := false })

/-- The `onstop` handler (lines 198-210): collect `streamParts` into one
blob (null when empty), clear the parts and the resolver, and restart the
recorder when `streamActive` is still set. Returns the blob delivered to
the waiting caller. -/
def onStop (st : StreamState) : Option Blob × StreamState :=
  let blob := if st.streamParts.isEmpty then none else some st.streamParts.flatten
  let st1 := { st with streamParts := ([] : List Blob), resolver := false }
  if st1.streamActive then (blob, { st1 with recording := true })
  else (blob, st1)

/-- The `ondataavailable` handler (lines 193-197): while the recorder
exists, non-empty data is appended to `streamParts`. -/
def dataAvailable (bs : Blob) (st : StreamState) : StreamState :=
  if st.started ∧ bs ≠ [] then { st with streamParts := st.streamParts ++ [bs] }
  else st

/-- `getFinalChunk` (lines 242-252): null when the stream recorder was
never created, when it is already inactive, or when a resolver is
outstanding; otherwise `streamActive` is cleared, a resolver installed and
`stop()` called. -/
def getFinalChunkStep (st : StreamState) : CutOutcome × StreamState :=
  if !st.started then (CutOutcome.immediateNull, st)
  else if !st.recording then (CutOutcome.immediateNull, st)
  else if st.resolver then (CutOutcome.immediateNull, st)
  else (CutOutcome.pendingCut, { st with streamActive := false, resolver := true, recording := false })

/-- A sequential `getChunk` call: when a cut starts, its `onstop` handler
runs to completion before anything else, delivering the blob. -/
def cutSegment (st : StreamState) : Option Blob × StreamState :=
  match getChunkStep st with
  | (CutOutcome.immediateNull, st1) => (none, st1)
  | (CutOutcome.pendingCut, st1) => onStop st1

/-- A sequential `getFinalChunk` call, resolved like `cutSegment`. -/
def getFinalChunkRun (st : StreamState) : Option Blob × StreamState :=
  match getFinalChunkStep st with
  | (CutOutcome.immediateNull, st1) => (none, st1)
  | (CutOutcome.pendingCut, st1) => onStop st1

/-- Environment events driving the recorder: arrival of recorded data, or
a scheduler-triggered cut. -/
inductive REvent where
  | data (bs : Blob)
  | cut
deriving DecidableEq, Repr

/-- Run the recorder over a sequence of events, collecting the value each
cut resolves with. -/
def runRec : StreamState → List REvent → List (Option Blob) × StreamState
  | st, [] => ([], st)
  | st, REvent.data bs :: es => runRec (dataAvailable bs st) es
  | st, REvent.cut :: es =>
    let r := cutSegment st
    let rest := runRec r.2 es
    (r.1 :: rest.1, rest.2)

/-- Specification of the cut results: before the first cut the recorder
does not exist, so data is ignored; the first cut returns null (warm-up)
and starts the segment; each later cut returns exactly the concatenation
of the data arrived since the previous cut (null when none arrived). -/
def expectedCuts : Bool → List Blob → List REvent → List (Option Blob)
  | _, _, [] => []
  | afterFirst, acc, REvent.data bs :: es =>
    expectedCuts afterFirst (if afterFirst ∧ bs ≠ [] then acc ++ [bs] else acc) es
  | false, acc, REvent.cut :: es => none :: expectedCuts true acc es
  | true, acc, REvent.cut :: es =>
    (if acc.isEmpty then none else some acc.flatten) :: expectedCuts true [] es

/-- The value of `pendingStreamingChunkRef` at stop time. The ref is
initialized to null (line 394) and reset to null (line 1040); no statement
in the source ever stores a blob in it, so it is the constant null. -/
def pendingStreamingChunk : Option Blob := none

/-- The combination step of the stop-time flush (lines 1037-1039):
`pending && finalChunk ? new Blob([pending, finalChunk]) : pending || finalChunk`. -/
def combineChunks : Option Blob → Option Blob → Option Blob
  | some p, some f => some (p ++ f)
  | some p, none => some p
  | none, f => f

/-- The blob dispatched by the stop-time flush (lines 1032-1050): the
pending chunk combined with the final cut; nothing is dispatched when the
combination is null. -/
def flushFinalDispatch (st : StreamState) : Option Blob :=
  combineChunks pendingStreamingChunk (getFinalChunkRun st).1

/-- State read and written by the scheduler's interval callback
(lines 965-986): the `streamingBusyRef` flag, the
`streamingChunkIndexRef` counter, and the recorder. -/
structure TickState where
  busy : Bool
  chunkIndex : Nat
  recState : StreamState
deriving DecidableEq, Repr

/-- Observable actions of one interval tick: dispatching an encoded chunk
with its index via `transcribe_chunk`, or logging a failure. -/
inductive TickAction where
  | dispatch (chunkIndex : Nat) (payload : List Nat)
  | logError
deriving DecidableEq, Repr

/-- One tick of the chunk scheduler (lines 965-986): a busy tick returns
at once; otherwise the tick cuts a segment, returns when the cut is null,
encodes the blob (a thrown encode error is caught and logged; the index is
not advanced), and dispatches the encoded chunk under the current index,
incrementing it. The busy flag is set for the duration of the body and
reset in the `finally`, so its net value is unchanged. -/
def schedulerTick (encodeChunk : Blob → Except String (List Nat)) (st : TickState) :
    List TickAction × TickState :=
  if st.busy then ([], st)
  else
    let r := cutSegment st.recState
    match r.1 with
    | none => ([], { st with recState := r.2 })
    | some b =>
      match encodeChunk b with
      | Except.error _ => ([TickAction.logError], { st with recState := r.2 })
      | Except.ok wav =>
        ([TickAction.dispatch st.chunkIndex wav],
          { st with recState := r.2, chunkIndex := st.chunkIndex + 1 })

/-- The scheduler's timer interval (lines 961-964):
`Math.max(1000, chunkDurationMs ?? 5000)`. -/
def streamingIntervalMs (chunkDurationMs : Option Int) : Int :=
  max 1000 (chunkDurationMs.getD 5000)

/-- The decode step of `blobToWavBase64` (line 261): `decodeAudioData` is
called exactly once, so only the first attempt of the environment's
attempt-indexed decode oracle is ever consulted. -/
def blobDecodeResult (decodeAttempt : Nat → Except String (List ℚ)) :
    Except String (List ℚ) :=
  decodeAttempt 0

/-- `Math.max(-1, Math.min(1, sample))` (line 323). -/
def clampSample (s : ℚ) : ℚ := max (-1) (min 1 s)

/-- Truncation toward zero, as JavaScript's DataView applies to a
non-integral number stored with `setInt16`. -/
def truncQ (v : ℚ) : ℤ := if 0 ≤ v then ⌊v⌋ else -⌊-v⌋

/-- The quantized 16-bit value of one sample (lines 323-324): clamp to
[-1, 1], then scale by 0x8000 for negative and 0x7fff for non-negative
values. -/
def quantizeSample (s : ℚ) : ℤ :=
  let c := clampSample s
  truncQ (if c < 0 then c * 32768 else c * 32767)

/-- Two little-endian bytes of a 16-bit two's-complement value. -/
def i16leBytes (n : ℤ) : List Nat :=
  let u := (n % 65536).toNat
  [u % 256, u / 256]

/-- `setUint16` little-endian byte pair. -/
def u16le (n : Nat) : List Nat := [n % 256, n / 256 % 256]

/-- `setUint32` little-endian byte quadruple. -/
def u32le (n : Nat) : List Nat :=
  [n % 256, n / 256 % 256, n / 65536 % 256, n / 16777216 % 256]

/-- `audioBufferToWav` (lines 279-329), byte for byte: the RIFF magic
(82, 73, 70, 70), the riff size, the WAVE and fmt magics, the fmt chunk
size 16, audio format 1, channel count 1, the sample rate, the byte rate
(sampleRate * blockAlign), block align 2, bits per sample 16, the data
magic (100, 97, 116, 97), the data byte count, then the clamped and
quantized samples as little-endian 16-bit values. -/
def audioBufferToWav (sampleRate : Nat) (samples : List ℚ) : List Nat :=
  let dataSize := samples.length * 2
  [82, 73, 70, 70] ++ u32le (36 + dataSize) ++
  [87, 65, 86, 69] ++ [102, 109, 116, 32] ++ u32le 16 ++
  u16le 1 ++ u16le 1 ++ u32le sampleRate ++ u32le (sampleRate * 2) ++
  u16le 2 ++ u16le 16 ++
  [100, 97, 116, 97] ++ u32le dataSize ++
  samples.flatMap (fun s => i16leBytes (quantizeSample s))

/-- One per-chunk result of the transcription backend, as carried by the
`transcription-chunk` (ok) and `transcription-error` (not ok) events. -/
structure PartialResult where
  chunkIndex : Nat
  text : String
  ok : Bool
deriving DecidableEq, Repr

/-- The live-transcript accumulation (lines 745-762): each
`transcription-chunk` event appends a space and its text
(`prev + " " + payload.text`); `transcription-error` events only log.
The transcript starts empty. -/
def mergeArrival (rs : List PartialResult) : String :=
  rs.foldl (fun acc r => if r.ok then acc ++ " " ++ r.text else acc) ""

/-- The texts of the successful results, in the order given. -/
def okTexts (rs : List PartialResult) : List String :=
  (rs.filter (fun r => r.ok)).map (fun r => r.text)

/-- Whether an `Except` result is a success. -/
def isOkE {α : Type} (r : Except String α) : Bool :=
  match r with
  | Except.ok _ => true
  | Except.error _ => false

/-- The source-acquisition part of `startRecorder` (lines 117-141, 253):
`getUserMedia` failure propagates; when system audio is requested,
`getDisplayMedia` runs inside try/catch, setting `systemAudioActive` only
on success and swallowing the failure. Returns the `systemAudioActive`
value of the handle. -/
def openRecorder (includeSystemAudio : Bool) (micResult sysResult : Except String Unit) :
    Except String Bool :=
  match micResult with
  | Except.error e => Except.error e
  | Except.ok _ =>
    let systemAudioActive :=
      if includeSystemAudio then
        match sysResult with
        | Except.ok _ => true
        | Except.error _ => false
      else false
    Except.ok systemAudioActive

/-- Helper: `okTexts` on a cons. -/
lemma okTexts_cons (r : PartialResult) (rs : List PartialResult) :
    okTexts (r :: rs) = if r.ok then r.text :: okTexts rs else okTexts rs := by
  cases hr : r.ok <;> simp [okTexts, List.filter_cons, hr]

/-- Helper: the live-transcript fold only sees the texts of successful
results, in order. -/
lemma foldl_merge_eq_okTexts (rs : List PartialResult) : ∀ init : String,
    rs.foldl (fun acc r => if r.ok then acc ++ " " ++ r.text else acc) init =
      (okTexts rs).foldl (fun acc t => acc ++ " " ++ t) init := by
  induction rs with
  | nil => intro init; rfl
  | cons r rs ih =>
    intro init
    cases hr : r.ok <;> simp [okTexts_cons, hr, List.foldl_cons, ih]

/-- Helper: the recorder run from the post-warm-up state returns, for each
cut, exactly the data accumulated since the previous cut. -/
lemma runRec_afterFirst (es : List REvent) : ∀ acc : List Blob,
    (runRec ⟨true, acc, false, true, false, true⟩ es).1 = expectedCuts true acc es := by
  induction es with
  | nil => intro acc; rfl
  | cons e es ih =>
    intro acc
    cases e with
    | data bs =>
      by_cases h : bs = [] <;>
        simp [runRec, dataAvailable, expectedCuts, h, ih]
    | cut =>
      simp [runRec, cutSegment, getChunkStep, ensureStreamRecorder, onStop, expectedCuts, ih]


/-- Helper: clamping keeps every sample in [-1, 1]. -/
lemma clampSample_mem (s : ℚ) : -1 ≤ clampSample s ∧ clampSample s ≤ 1 :=
  ⟨le_max_left _ _, max_le (by norm_num) (min_le_left _ _)⟩

/-- Helper: the quantized value of a clamped sample fits signed 16 bits. -/
lemma quantizeSample_range (s : ℚ) :
    -32768 ≤ quantizeSample s ∧ quantizeSample s ≤ 32767 := by
  obtain ⟨h1, h2⟩ := clampSample_mem s
  set c := clampSample s with hc
  by_cases hneg : c < 0
  · have hv0 : c * 32768 < 0 := mul_neg_of_neg_of_pos hneg (by norm_num)
    have hv1 : (-32768 : ℚ) ≤ c * 32768 := by nlinarith
    have hq : quantizeSample s = -⌊-(c * 32768)⌋ := by
      rw [quantizeSample, ← hc, if_pos hneg, truncQ, if_neg (not_le.mpr hv0)]
    have hfl : (0 : ℤ) ≤ ⌊-(c * 32768)⌋ :=
      Int.le_floor.mpr (by push_cast; linarith)
    have hfu : ⌊-(c * 32768)⌋ ≤ 32768 := by
      have hle : (⌊-(c * 32768)⌋ : ℚ) ≤ 32768 :=
        le_trans (Int.floor_le _) (by linarith)
      exact_mod_cast hle
    constructor <;> rw [hq] <;> omega
  · push_neg at hneg
    have hv0 : (0 : ℚ) ≤ c * 32767 := mul_nonneg hneg (by norm_num)
    have hv1 : c * 32767 ≤ 32767 := by nlinarith
    have hq : quantizeSample s = ⌊c * 32767⌋ := by
      rw [quantizeSample, ← hc, if_neg (not_lt.mpr hneg), truncQ, if_pos hv0]
    have hfl : (0 : ℤ) ≤ ⌊c * 32767⌋ := Int.le_floor.mpr (by push_cast; linarith)
    have hfu : ⌊c * 32767⌋ ≤ 32767 := by
      have hle : (⌊c * 32767⌋ : ℚ) ≤ 32767 := le_trans (Int.floor_le _) hv1
      exact_mod_cast hle
    constructor <;> rw [hq] <;> omega

/-- Helper: the data section holds two bytes per sample. -/
lemma flatMap_i16_length (samples : List ℚ) :
    (samples.flatMap (fun s => i16leBytes (quantizeSample s))).length =
      samples.length * 2 := by
  induction samples with
  | nil => rfl
  | cons s ss ih =>
    have h2 : (i16leBytes (quantizeSample s)).length = 2 := rfl
    rw [List.flatMap_cons, List.length_append, ih, h2, List.length_cons]
    ring

/-- C1 counterexample: the two arrival orders of the same set of
successful results (a permutation pair) merge to different strings, so the
merged live transcript is not a function of the result set and index order
alone. -/
theorem merge_output_depends_on_arrival_order :
    ([⟨0, "a", true⟩, ⟨1, "b", true⟩] : List PartialResult).Perm
        [⟨1, "b", true⟩, ⟨0, "a", true⟩] ∧
    mergeArrival [⟨0, "a", true⟩, ⟨1, "b", true⟩] ≠
      mergeArrival [⟨1, "b", true⟩, ⟨0, "a", true⟩] := by
  refine ⟨List.Perm.swap _ _ _, ?_⟩
  decide

/-- C1 (amended): the merged live transcript is a function of the
successful results in arrival order — it equals the arrival-ordered
concatenation of the ok texts, each preceded by a single space, with no
overlap trimming; failed results and chunk indices contribute nothing. -/
theorem mergeArrival_fn_of_ok_texts_in_arrival_order (rs : List PartialResult) :
    mergeArrival rs = (okTexts rs).foldl (fun acc t => acc ++ " " ++ t) "" ∧
    ∀ rs' : List PartialResult, okTexts rs' = okTexts rs →
      mergeArrival rs' = mergeArrival rs := by
  have hmain : ∀ l : List PartialResult,
      mergeArrival l = (okTexts l).foldl (fun acc t => acc ++ " " ++ t) "" := by
    intro l
    simpa [mergeArrival] using foldl_merge_eq_okTexts l ""
  exact ⟨hmain rs, fun rs' h => by rw [hmain rs', hmain rs, h]⟩

/-- C1 witness: instantiating the amended theorem at a concrete pair of
arrival orders that agree on their ok texts. -/
theorem mergeArrival_fn_of_ok_texts_witness :
    mergeArrival [⟨1, "x", false⟩, ⟨0, "hello", true⟩] =
      mergeArrival [⟨0, "hello", true⟩, ⟨1, "x", false⟩] :=
  (mergeArrival_fn_of_ok_texts_in_arrival_order
      [⟨0, "hello", true⟩, ⟨1, "x", false⟩]).2
    [⟨1, "x", false⟩, ⟨0, "hello", true⟩] rfl

/-- C2: evaluating the merge at the spec's own scenario — chunk 0
"we should look at" and chunk 1 "at the authentication flow" — yields the
naive concatenation with the duplicated word "at" (and the accumulator's
leading space), not the overlap-trimmed transcript the claim requires. -/
theorem merge_no_overlap_trim_eval :
    mergeArrival
        [⟨0, "we should look at", true⟩, ⟨1, "at the authentication flow", true⟩] =
      " we should look at at the authentication flow" := rfl

/-- C3: the stop-time flush at a state where a regular cut is still in
flight (an outstanding resolver, tail bytes [1, 2, 3] accumulated)
dispatches nothing: `getFinalChunk` returns null at such a state, and the
pending/final concatenation branch is dead because
`pendingStreamingChunkRef` is never assigned, so `combineChunks` always
passes the final cut through unchanged. The tail audio is dropped. -/
theorem stop_flush_drops_inflight_tail :
    flushFinalDispatch ⟨true, [[1, 2, 3]], true, true, false, false⟩ = none ∧
    (∀ f : Option Blob, combineChunks pendingStreamingChunk f = f) := by
  refine ⟨rfl, ?_⟩
  intro f
  cases f <;> rfl

/-- C4: over every sequence of data arrivals and sequential cuts from the
fresh recorder state, the cut results are exactly `expectedCuts`: the
first cut returns null (the warm-up interval is discarded), and every
later cut returns exactly the concatenation of the data recorded since the
previous cut — no gaps and no overlap at the recorder level. -/
theorem first_cut_null_then_exact_segments (es : List REvent) :
    (runRec initialStreamState es).1 = expectedCuts false [] es := by
  induction es with
  | nil => rfl
  | cons e es ih =>
    cases e with
    | data bs =>
      have hd : dataAvailable bs initialStreamState = initialStreamState := by
        simp [dataAvailable, initialStreamState]
      simpa [runRec, hd, expectedCuts, initialStreamState] using ih
    | cut =>
      simpa [runRec, cutSegment, getChunkStep, ensureStreamRecorder, onStop,
        initialStreamState, expectedCuts] using runRec_afterFirst es []

/-- C5: a `getChunk` call at any reachable state with an outstanding chunk
resolver (a cut in progress) returns null and leaves the whole recorder
state — in particular the accumulated segment bytes and the segment
boundary — unchanged; the call is never queued. -/
theorem cut_single_flight_rejected_unchanged (st : StreamState)
    (hres : st.resolver = true) (hstart : st.started = true)
    (hwarm : st.streamWarmup = false) :
    getChunkStep st = (CutOutcome.immediateNull, st) := by
  have h1 : ensureStreamRecorder st = st := by simp [ensureStreamRecorder, hstart]
  cases hr : st.recording <;> simp [getChunkStep, h1, hwarm, hres, hr]

/-- C5 witness: the single-flight theorem applied to a concrete in-flight
state. -/
theorem cut_single_flight_witness :
    getChunkStep ⟨true, [[5]], true, true, false, false⟩ =
      (CutOutcome.immediateNull, ⟨true, [[5]], true, true, false, false⟩) :=
  cut_single_flight_rejected_unchanged _ rfl rfl rfl

/-- C6: `blobToWavBase64` consults only the first decode attempt — a chunk
whose decode fails on the first attempt is terminal even when a retry
would succeed, so no retry exists. -/
theorem decode_attempted_exactly_once_eval :
    blobDecodeResult
        (fun n => if n = 0 then Except.error "decode failed" else Except.ok []) =
      Except.error "decode failed" := rfl

set_option maxHeartbeats 1600000 in
/-- C7: the WAV writer's output is byte-exact — RIFF magic, a format chunk
declaring 1 channel, 16000 Hz and 16-bit samples, a data chunk whose
declared count equals the written PCM bytes (2 per sample, little-endian
throughout), and every sample is clamped to [-1, 1] before quantization,
keeping the quantized value within signed 16-bit range. -/
theorem wav_encoder_clamps_and_header_byte_exact (samples : List ℚ) :
    (audioBufferToWav 16000 samples).take 4 = [82, 73, 70, 70] ∧
    List.take 2 ((audioBufferToWav 16000 samples).drop 22) = u16le 1 ∧
    List.take 4 ((audioBufferToWav 16000 samples).drop 24) = u32le 16000 ∧
    List.take 2 ((audioBufferToWav 16000 samples).drop 34) = u16le 16 ∧
    List.take 4 ((audioBufferToWav 16000 samples).drop 40) = u32le (samples.length * 2) ∧
    (audioBufferToWav 16000 samples).length = 44 + samples.length * 2 ∧
    (audioBufferToWav 16000 samples).drop 44 =
      samples.flatMap (fun s => i16leBytes (quantizeSample s)) ∧
    (∀ s : ℚ, -1 ≤ clampSample s ∧ clampSample s ≤ 1 ∧
      -32768 ≤ quantizeSample s ∧ quantizeSample s ≤ 32767) := by
  refine ⟨rfl, rfl, rfl, rfl, rfl, ?_, rfl, ?_⟩
  · have h1 : (audioBufferToWav 16000 samples).length =
        (samples.flatMap (fun s => i16leBytes (quantizeSample s))).length + 44 := rfl
    rw [h1, flatMap_i16_length]
    omega
  · intro s
    obtain ⟨h1, h2⟩ := clampSample_mem s
    obtain ⟨h3, h4⟩ := quantizeSample_range s
    exact ⟨h1, h2, h3, h4⟩

/-- C8: the recorder-opening path succeeds exactly when the microphone is
acquired; a failing system-audio acquisition is swallowed and yields a
successful handle with `systemAudioActive = false`. -/
theorem open_succeeds_iff_mic_acquired (inc : Bool)
    (micResult sysResult : Except String Unit) :
    (isOkE (openRecorder inc micResult sysResult) = isOkE micResult) ∧
    (∀ e : String, openRecorder true (Except.ok ()) (Except.error e) =
      Except.ok false) := by
  refine ⟨?_, fun e => rfl⟩
  cases micResult <;> rfl

/-- C9: the scheduler's interval is never below 1000 ms (and defaults to
5000 ms when unconfigured), and a tick that finds the busy flag set
performs no cut, no encode and no dispatch, leaving all state unchanged. -/
theorem scheduler_min_interval_and_busy_skip :
    (∀ cfg : Option Int, 1000 ≤ streamingIntervalMs cfg) ∧
    streamingIntervalMs none = 5000 ∧
    (∀ (enc : Blob → Except String (List Nat)) (st : TickState),
      st.busy = true → schedulerTick enc st = ([], st)) := by
  refine ⟨fun cfg => le_max_left _ _, by decide, ?_⟩
  intro enc st h
  simp [schedulerTick, h]

/-- C9 witness: the busy-skip applied at a concrete busy state, plus the
interval bound at a concrete below-minimum configuration. -/
theorem scheduler_busy_skip_witness :
    schedulerTick (fun _ => Except.ok []) ⟨true, 0, initialStreamState⟩ =
      ([], ⟨true, 0, initialStreamState⟩) ∧
    1000 ≤ streamingIntervalMs (some 200) :=
  ⟨scheduler_min_interval_and_busy_skip.2.2 _ _ rfl,
   scheduler_min_interval_and_busy_skip.1 _⟩

/-- C10: `getFinalChunk` returns null, with the state untouched, whenever
the stream recorder was never created, is already inactive, or has an
outstanding resolver — and in each of those cases the stop-time flush
dispatches no extra chunk. -/
theorem getFinalChunk_null_states_no_dispatch (st : StreamState)
    (h : st.started = false ∨ st.recording = false ∨ st.resolver = true) :
    getFinalChunkStep st = (CutOutcome.immediateNull, st) ∧
    flushFinalDispatch st = none := by
  have hstep : getFinalChunkStep st = (CutOutcome.immediateNull, st) := by
    rcases h with h | h | h
    · simp [getFinalChunkStep, h]
    · cases hs : st.started <;> simp [getFinalChunkStep, h, hs]
    · cases hs : st.started <;> cases hr : st.recording <;>
        simp [getFinalChunkStep, h, hs, hr]
  refine ⟨hstep, ?_⟩
  simp [flushFinalDispatch, getFinalChunkRun, hstep, pendingStreamingChunk,
    combineChunks]

/-- C10 witness: the theorem applied at the fresh state, where the stream
recorder was never created. -/
theorem getFinalChunk_null_states_witness :
    getFinalChunkStep initialStreamState =
      (CutOutcome.immediateNull, initialStreamState) ∧
    flushFinalDispatch initialStreamState = none :=
  getFinalChunk_null_states_no_dispatch initialStreamState (Or.inl rfl)
